import Mathlib

namespace ERC

/-! Formal model of the ERC agent submission: the adaptive pagination client, the
tool factory with its completion latch, the turn-scoped action logger, and the
coordinator turn loop, for both the store variant (src/store_st/submission.py) and
the dev variant (src/dev_st/submission.py).  Python functions are embedded as total
Lean functions; the remote endpoint and the two LLM agents are modelled as explicit
oracles (finite response lists, or functions from the turn index), so every
definition is executable on concrete inputs. -/

/-! ## Adaptive pagination client (store_st/submission.py, search_products) -/

/-- One response of the backing list endpoint to a `/products/list` dispatch.
`ok items next_offset` is a successful page (`next_offset = none` models a missing
or null `next_offset` attribute).  The error constructors model the classification
that `search_products` applies to the lowercased text of a raised `ApiException`:
`exceeded x y` is a message matched by the regex `exceeded.*?(\d+).*?>.*?(\d+)`
with capture groups `x` and `y`; `invalidParams` is an unmatched message containing
"invalid pagination" or "invalid params"; `otherErr` is any other message. -/
inductive PageResp (α : Type) where
  | ok (items : List α) (next_offset : Option Int)
  | exceeded (x y : Nat)
  | invalidParams
  | otherErr
deriving DecidableEq

/-- Outcome of a run of the pagination loop against a finite response list.
`done items` means the Python function returned `items`; `pending items` means the
finite oracle list was exhausted while the loop was still running (the Python
server always answers, so `pending` marks a trace that is too short to decide the
run, with `items` the accumulation so far). -/
inductive SearchResult (α : Type) where
  | done (items : List α)
  | pending (items : List α)
deriving DecidableEq

/-- The accumulated item list carried by a `SearchResult`. -/
def SearchResult.items {α : Type} : SearchResult α → List α
  | .done l => l
  | .pending l => l

/-- The `while True` / `for attempt in range(5)` loop of `search_products`
(store_st/submission.py lines 170-218).  `att` is the number of attempts still
available in the current inner `for` loop, counting the present one (the Python
loop starts each page block with 5).  Each consumed oracle response is one
`client.dispatch` call; the second component is the trace of `(offset, limit)`
pairs actually requested, in order.  On success the items are extended onto the
accumulator and, unless `next_offset` is absent, null or `-1`, the loop moves to
`offset := next_offset` with a fresh attempt budget; on an `exceeded` error the
limit becomes the second captured number and the same offset is retried; on an
`invalidParams` error the limit is set to `1` if it was larger, else the
accumulated items are returned; on any other `ApiException` the accumulated items
are returned.  When the attempt budget is exhausted the inner loop ends with
`success == False` and the function returns the accumulated items. -/
def searchGo {α : Type} (offset : Int) (limit : Nat) (att : Nat) (acc : List α) :
    List (PageResp α) → SearchResult α × List (Int × Nat)
  | [] => (SearchResult.pending acc, [])
  | PageResp.ok items next :: rest =>
      (match next with
       | none => (SearchResult.done (acc ++ items), [(offset, limit)])
       | some n =>
         if n = -1 then (SearchResult.done (acc ++ items), [(offset, limit)])
         else
           ((searchGo n limit 5 (acc ++ items) rest).1,
             (offset, limit) :: (searchGo n limit 5 (acc ++ items) rest).2))
  | PageResp.exceeded _ y :: rest =>
      if 2 ≤ att then
        ((searchGo offset y (att - 1) acc rest).1,
          (offset, limit) :: (searchGo offset y (att - 1) acc rest).2)
      else (SearchResult.done acc, [(offset, limit)])
  | PageResp.invalidParams :: rest =>
      if 1 < limit then
        if 2 ≤ att then
          ((searchGo offset 1 (att - 1) acc rest).1,
            (offset, limit) :: (searchGo offset 1 (att - 1) acc rest).2)
        else (SearchResult.done acc, [(offset, limit)])
      else (SearchResult.done acc, [(offset, limit)])
  | PageResp.otherErr :: _ => (SearchResult.done acc, [(offset, limit)])

/-- The `search_products` pagination loop entry point: `offset = 0`,
`current_limit = 10`, fresh budget of 5 attempts, empty accumulator. -/
def search_products {α : Type} (responses : List (PageResp α)) :
    SearchResult α × List (Int × Nat) :=
  searchGo 0 10 5 [] responses

/-- A well-formed pagination trace: successful pages `pages`, where page `i` (for
`i` before the last) reports `next_offset = nexts[i]` and the final page reports
the sentinel `fin` (`none` for an absent or null attribute, or `some (-1)`). -/
def okResponses {α : Type} (fin : Option Int) :
    List (List α) → List Int → List (PageResp α)
  | [], _ => []
  | p :: _, [] => [PageResp.ok p fin]
  | p :: ps, n :: ns => PageResp.ok p (some n) :: okResponses fin ps ns

/-- The offsets of the requests in a trace that were answered by a successful
(`ok`) response; the trace entry at position `i` is the request answered by the
oracle response at position `i`. -/
def okOffsets {α : Type} : List (Int × Nat) → List (PageResp α) → List Int
  | [], _ => []
  | _, [] => []
  | (o, _) :: tr, r :: rs =>
      (match r with
       | PageResp.ok _ _ => o :: okOffsets tr rs
       | _ => okOffsets tr rs)

/-- The advancing-server condition, relative to a request trace: every successful
response either reports the `-1` sentinel or a `next_offset` strictly beyond the
offset at which it was served. -/
def advancesAt {α : Type} : List (Int × Nat) → List (PageResp α) → Bool
  | [], _ => true
  | _, [] => true
  | (o, _) :: tr, r :: rs =>
      (match r with
       | PageResp.ok _ (some n) => (n == -1) || decide (o < n)
       | _ => true) && advancesAt tr rs

/-! ## ActionLogger (identical in both variants) -/

/-- Turn-scoped interaction buffer; the `print` side effects of the Python class
are outside the functional model. -/
structure ActionLogger where
  logs : List String
deriving DecidableEq

namespace ActionLogger

/-- Python `log`: print (side effect dropped) and append to the buffer. -/
def log (l : ActionLogger) (message : String) : ActionLogger :=
  { logs := l.logs ++ [message] }

/-- Python `log_error`: append to the buffer without the live echo. -/
def log_error (l : ActionLogger) (message : String) : ActionLogger :=
  { logs := l.logs ++ [message] }

/-- Python `get_history_entry`: the newline-joined buffer, or the literal sentinel when
the buffer is empty. -/
def get_history_entry (l : ActionLogger) : String :=
  if l.logs = [] then "No API interactions recorded this turn."
  else String.intercalate "\n" l.logs

/-- Python `clear`: truncate the buffer. -/
def clear (_ : ActionLogger) : ActionLogger := { logs := [] }

/-- Helper: append a whole list of messages through `log`, one at a time. -/
def logAll (l : ActionLogger) (msgs : List String) : ActionLogger :=
  msgs.foldl log l

end ActionLogger

/-! ## Tool factory state (create_tools in both variants)

`task_state = {"completed": False}` together with the sequence of endpoints
actually dispatched to the remote client, in order.  Each tool is a function of
its oracle (the outcome the remote client would produce) and the current state. -/

structure ToolState where
  completed : Bool
  dispatched : List String
deriving DecidableEq

/-- The store `search_products` tool: the completed-latch guard around the
pagination loop.  When the latch is set it returns `[]` without any dispatch;
otherwise it runs the loop, dispatching `/products/list` once per consumed
response. -/
def search_products_tool (responses : List (PageResp Nat)) (s : ToolState) :
    List Nat × ToolState :=
  if s.completed then ([], s)
  else
    ((search_products responses).1.items,
      { s with dispatched :=
          s.dispatched ++ (search_products responses).2.map (fun _ => "/products/list") })

/-- Result of the store `get_basket` tool. -/
inductive BasketView where
  | completedView
  | basket (dump : String)
  | apiError (msg : String)
deriving DecidableEq

/-- Store `get_basket`: completed latch returns the fixed empty view without a
dispatch; otherwise one `/basket/get` dispatch whose outcome is the oracle. -/
def get_basket (resp : Except String String) (s : ToolState) : BasketView × ToolState :=
  if s.completed then (BasketView.completedView, s)
  else
    match resp with
    | Except.ok dump =>
        (BasketView.basket dump, { s with dispatched := s.dispatched ++ ["/basket/get"] })
    | Except.error e =>
        (BasketView.apiError e, { s with dispatched := s.dispatched ++ ["/basket/get"] })

/-- Store `add_to_basket`. -/
def add_to_basket (sku : String) (quantity : Nat) (resp : Except String Unit)
    (s : ToolState) : String × ToolState :=
  if s.completed then ("Error: Task completed.", s)
  else
    match resp with
    | Except.ok _ =>
        ("Success: Added " ++ toString quantity ++ " x SKU " ++ sku ++ " to basket.",
          { s with dispatched := s.dispatched ++ ["/basket/add"] })
    | Except.error e =>
        ("Error adding to basket: " ++ e,
          { s with dispatched := s.dispatched ++ ["/basket/add"] })

/-- Store `remove_from_basket`. -/
def remove_from_basket (sku : String) (quantity : Nat) (resp : Except String Unit)
    (s : ToolState) : String × ToolState :=
  if s.completed then ("Error: Task completed.", s)
  else
    match resp with
    | Except.ok _ =>
        ("Success: Removed " ++ toString quantity ++ " x SKU " ++ sku ++ " from basket.",
          { s with dispatched := s.dispatched ++ ["/basket/remove"] })
    | Except.error e =>
        ("Error removing from basket: " ++ e,
          { s with dispatched := s.dispatched ++ ["/basket/remove"] })

/-- Store `apply_coupon` (the quote characters around the coupon code in the
Python success message are left out of the model). -/
def apply_coupon (coupon_code : String) (resp : Except String Unit)
    (s : ToolState) : String × ToolState :=
  if s.completed then ("Error: Task completed.", s)
  else
    match resp with
    | Except.ok _ =>
        ("Coupon " ++ coupon_code ++ " applied. CHECK BASKET TO VERIFY DISCOUNT.",
          { s with dispatched := s.dispatched ++ ["/coupon/apply"] })
    | Except.error e =>
        ("Error applying coupon: " ++ e,
          { s with dispatched := s.dispatched ++ ["/coupon/apply"] })

/-- A tool call either returns a string or raises (Python `raise Exception(...)`). -/
inductive CheckoutResult where
  | ret (msg : String)
  | raised (msg : String)
deriving DecidableEq

/-- Oracle for the two dispatches `checkout` can make: the silent
`Req_ViewBasket` pre-check (`ok none` and `ok (some [])` both model a falsy
`items` field; `error` models the swallowed pre-check exception) and the
`Req_CheckoutBasket` dispatch itself (`ok receipt` is the dumped receipt). -/
structure CheckoutEnv where
  viewBasket : Except String (Option (List String))
  checkoutResp : Except String String

/-- Store `checkout` (store_st/submission.py lines 289-313): completed latch
first; then the silent basket view (its exception is swallowed by
`except Exception: pass`); an empty basket returns early; otherwise the checkout
dispatch either succeeds (setting the latch, returning the receipt message) or
raises, re-raised as a `Checkout Failed:` exception with the latch untouched. -/
def checkout (env : CheckoutEnv) (s : ToolState) : CheckoutResult × ToolState :=
  if s.completed then (CheckoutResult.ret "Order already checked out.", s)
  else
    let s1 : ToolState := { s with dispatched := s.dispatched ++ ["/basket/get"] }
    let basketEmpty : Bool :=
      match env.viewBasket with
      | Except.ok items => (items.getD []).isEmpty
      | Except.error _ => false
    if basketEmpty then (CheckoutResult.ret "ERROR: Basket is empty!", s1)
    else
      let s2 : ToolState := { s1 with dispatched := s1.dispatched ++ ["/basket/checkout"] }
      match env.checkoutResp with
      | Except.ok receipt =>
          (CheckoutResult.ret ("Checkout Success! Receipt: " ++ receipt),
            { s2 with completed := true })
      | Except.error e =>
          (CheckoutResult.raised ("Checkout Failed: " ++ e), s2)

/-- Dev `respond` (dev_st/submission.py lines 624-650): completed latch first;
otherwise one `/respond` dispatch; on success the latch is set; on an
`ApiException` an error string is returned and the latch stays as it was. -/
def respond (resp : Except String Unit) (s : ToolState) : String × ToolState :=
  if s.completed then ("Task already completed.", s)
  else
    match resp with
    | Except.ok _ =>
        ("Response Submitted Successfully. Task Finished.",
          { s with dispatched := s.dispatched ++ ["/respond"], completed := true })
    | Except.error e =>
        ("Error submitting response: " ++ e,
          { s with dispatched := s.dispatched ++ ["/respond"] })

/-- Dev `finish_task`: sets the latch and returns locally, with no remote
dispatch (the logger side effect is outside this state). -/
def finish_task (reason : String) (s : ToolState) : String × ToolState :=
  ("Task marked as finished: " ++ reason, { s with completed := true })

/-- Result of the dev `list_employees` tool. -/
inductive ListResp where
  | page (dump : String)
  | apiError (msg : String)
deriving DecidableEq

/-- Dev `list_employees` (dev_st/submission.py lines 197-213): note that, unlike
every store tool, it does not consult `task_state["completed"]`, so it always
performs its `/employees/list` dispatch. -/
def list_employees (resp : Except String String) (s : ToolState) :
    ListResp × ToolState :=
  match resp with
  | Except.ok dump =>
      (ListResp.page dump, { s with dispatched := s.dispatched ++ ["/employees/list"] })
  | Except.error e =>
      (ListResp.apiError e, { s with dispatched := s.dispatched ++ ["/employees/list"] })

/-! ## Strings of the coordinator, as character lists -/

/-- Python strings handled by the coordinator parsing code are embedded as
character lists. -/
abbrev Str := List Char

/-- A string literal as a character list. -/
def strL (s : String) : Str := s.toList

/-- Python `str.strip()`: drop leading and trailing whitespace. -/
def trim (l : Str) : Str :=
  ((l.dropWhile Char.isWhitespace).reverse.dropWhile Char.isWhitespace).reverse

/-- Python `text.split('\n')`: the newline-free segments of `text`, with empty
segments kept (so the result of splitting the empty string is `[[]]`). -/
def linesOf : Str → List Str
  | [] => [[]]
  | c :: cs =>
      if c = '\n' then [] :: linesOf cs
      else
        match linesOf cs with
        | [] => [[c]]
        | l :: ls => (c :: l) :: ls

/-- Rejoin line segments with newlines; inverse of `linesOf`. -/
def joinLines : List Str → Str
  | [] => []
  | [l] => l
  | l :: ls => l ++ '\n' :: joinLines ls

/-- Python `text.split(pat, 1)`: the segments before and after the first
occurrence of `pat` in `text`, or `none` when `pat` does not occur (this also
decides Python `pat in text`). -/
def splitFirst (pat : Str) : Str → Option (Str × Str)
  | [] => if pat.isEmpty then some ([], []) else none
  | c :: cs =>
      if pat.isPrefixOf (c :: cs) then some ([], (c :: cs).drop pat.length)
      else
        match splitFirst pat cs with
        | some (a, b) => some (c :: a, b)
        | none => none

/-- Python `pat in text`. -/
def containsSub (pat t : Str) : Bool := (splitFirst pat t).isSome

/-- Python `str.upper()` (ASCII). -/
def toUpperS (l : Str) : Str := l.map Char.toUpper

/-- Python `line.split(":", 1)[1]`, used on a line known to contain a colon;
`[]` when there is no colon. -/
def afterFirstColon (l : Str) : Str :=
  match splitFirst [':'] l with
  | some (_, b) => b
  | none => []

/-- Store decision parsing (store_st/submission.py lines 508-513): the first line
whose stripped form starts with `DECISION:` yields the text after the first
colon, stripped and uppercased; otherwise the default is `PROCEED`. -/
def parseDecisionVal (text : Str) : Str :=
  match (linesOf text).find? (fun l => (strL "DECISION:").isPrefixOf (trim l)) with
  | some l => toUpperS (trim (afterFirstColon l))
  | none => strL "PROCEED"

/-- Store line 515: `if "FINISH" in decision_val`. -/
def finishP (text : Str) : Bool := containsSub (strL "FINISH") (parseDecisionVal text)

/-- Python `text.split('\n')[-1]`: the last line segment. -/
def lastLineOf (text : Str) : Str := (linesOf text).getLastD []

/-- The instruction label searched for by both variants. -/
def instrLabel : Str := strL "INSTRUCTION:"

/-- Store instruction parsing (store_st/submission.py lines 519-528): the text
after the first `INSTRUCTION:` label, stripped; when that is absent or strips to
the empty string, the fallback is the last line of the output, stripped. -/
def store_parseInstruction (text : Str) : Str :=
  let inst : Str :=
    match splitFirst instrLabel text with
    | some (_, b) => trim b
    | none => []
  if inst.isEmpty then trim (lastLineOf text) else inst

/-- Dev instruction parsing (dev_st/submission.py lines 972-976): the text after
the first `INSTRUCTION:` label, stripped; when the label is absent, the last
line of the output, stripped. -/
def dev_parseInstruction (text : Str) : Str :=
  match splitFirst instrLabel text with
  | some (_, b) => trim b
  | none => trim (lastLineOf text)

/-- Dev completion scan (dev_st/submission.py line 1030). -/
def devFinishScan (out : Str) : Bool :=
  containsSub (strL "[TASK FINISHED]") out ||
    (containsSub (strL "/respond") out && containsSub (strL "Task Finished") out)

/-- Modelled from the spec: the "last non-empty line" fallback that sections 3
and 8 of the spec claim for a planner output missing the `INSTRUCTION:` label.
This definition follows the words of the spec and is compared against the
source-derived parsers; it is not part of the code model. -/
def spec_lastNonEmptyLine (text : Str) : Str :=
  ((linesOf text).filter (fun l => !l.isEmpty)).getLastD []

/-! ## Coordinator loop (run_coordinator in both variants) -/

/-- A coordinator run either returns a result string or lets an exception
propagate (only the planner call can do so; worker exceptions are caught). -/
inductive CoordOutcome where
  | ret (result : String)
  | raised (msg : Str)
deriving DecidableEq

/-- Observable trace of one coordinator run: the outcome, the number of planner
calls, the instructions the worker was actually run on (in order), and the final
`history` list. -/
structure CoordRun where
  outcome : CoordOutcome
  plannerCalls : Nat
  executed : List Str
  history : List Str
deriving DecidableEq

/-- The two coordinator variants differ only in the instruction parser, in
whether the parsed decision is checked for `FINISH` before the worker runs
(store), and in whether the worker output is scanned for a completion marker
after the worker runs (dev). -/
structure CoordCfg where
  parseInst : Str → Str
  preFinish : Str → Bool
  postScan : Str → Bool

/-- Oracles for one task run: the planner output text per turn (an `error` is a
raised LLM exception, which `decide_next_step` re-raises) and the worker outcome
per turn (`ok` is the captured stdout, `error` a raised worker exception).  Both
agents are queried exactly once per turn, so a function of the turn index covers
every behaviour the loop can observe. -/
structure CoordEnv where
  planner : Nat → Except Str Str
  worker : Nat → Except Str Str

/-- History entry `Evaluator Instruction: {instruction}`. -/
def instEntry (inst : Str) : Str := strL "Evaluator Instruction: " ++ inst

/-- History entry `Worker Execution Logs:\n{worker_output}`. -/
def outEntry (out : Str) : Str := strL "Worker Execution Logs:\n" ++ out

/-- History entry for a caught worker exception; the Python code formats the
message as `Worker Error: {e}` and then appends `Worker Error: {error_msg}`,
hence the doubled tag. -/
def errEntry (e : Str) : Str := strL "Worker Error: Worker Error: " ++ e

/-- The `for turn in range(max_turns)` loop shared by the two variants, with
`r` turns remaining and `turn` the index of the current turn.  Per turn: call the
planner (re-raising its exception); in the store variant check the parsed
decision for `FINISH` and return `Success` without running the worker; parse the
instruction; run the worker; in the dev variant scan a successful worker output
for the completion marker and return `Success` without a history append; append
the instruction entry and the output or error entry; continue.  Exhaustion
returns `Max turns reached`.  (The per-turn basket or context refresh feeds only
the planner prompt and cannot change control flow, so it is not modelled.) -/
def coordTurns (cfg : CoordCfg) (env : CoordEnv) : Nat → Nat → List Str → CoordRun
  | 0, _, hist =>
      { outcome := CoordOutcome.ret "Max turns reached", plannerCalls := 0,
        executed := [], history := hist }
  | r + 1, turn, hist =>
      match env.planner turn with
      | Except.error e =>
          { outcome := CoordOutcome.raised e, plannerCalls := 1,
            executed := [], history := hist }
      | Except.ok d =>
          if cfg.preFinish d then
            { outcome := CoordOutcome.ret "Success", plannerCalls := 1,
              executed := [], history := hist }
          else
            match env.worker turn with
            | Except.ok out =>
                if cfg.postScan out then
                  { outcome := CoordOutcome.ret "Success", plannerCalls := 1,
                    executed := [cfg.parseInst d], history := hist }
                else
                  { outcome := (coordTurns cfg env r (turn + 1)
                      (hist ++ [instEntry (cfg.parseInst d), outEntry out])).outcome,
                    plannerCalls := (coordTurns cfg env r (turn + 1)
                      (hist ++ [instEntry (cfg.parseInst d), outEntry out])).plannerCalls + 1,
                    executed := cfg.parseInst d :: (coordTurns cfg env r (turn + 1)
                      (hist ++ [instEntry (cfg.parseInst d), outEntry out])).executed,
                    history := (coordTurns cfg env r (turn + 1)
                      (hist ++ [instEntry (cfg.parseInst d), outEntry out])).history }
            | Except.error e =>
                { outcome := (coordTurns cfg env r (turn + 1)
                    (hist ++ [instEntry (cfg.parseInst d), errEntry e])).outcome,
                  plannerCalls := (coordTurns cfg env r (turn + 1)
                    (hist ++ [instEntry (cfg.parseInst d), errEntry e])).plannerCalls + 1,
                  executed := cfg.parseInst d :: (coordTurns cfg env r (turn + 1)
                    (hist ++ [instEntry (cfg.parseInst d), errEntry e])).executed,
                  history := (coordTurns cfg env r (turn + 1)
                    (hist ++ [instEntry (cfg.parseInst d), errEntry e])).history }

/-- Store variant configuration: decision check before the worker, no output
scan (store run_coordinator returns `Success` only from the decision check). -/
def storeCfg : CoordCfg :=
  { parseInst := store_parseInstruction, preFinish := finishP, postScan := fun _ => false }

/-- Dev variant configuration: the `DECISION: FINISH` branch in the source is a
`pass` (dev_st/submission.py lines 978-981), so no decision check; `Success` is
detected only by scanning the worker output. -/
def devCfg : CoordCfg :=
  { parseInst := dev_parseInstruction, preFinish := fun _ => false,
    postScan := devFinishScan }

/-- The `run_coordinator` of store_st/submission.py: `max_turns = 7`, empty history. -/
def run_coordinator_store (env : CoordEnv) : CoordRun := coordTurns storeCfg env 7 0 []

/-- The `run_coordinator` of dev_st/submission.py: `max_turns = 7`, empty history. -/
def run_coordinator_dev (env : CoordEnv) : CoordRun := coordTurns devCfg env 7 0 []

/-- Turn `t` produces no terminal signal: the planner returns text that does not
trigger the pre-worker finish check, and a successful worker output does not
trigger the post-worker scan. -/
def noSignal (cfg : CoordCfg) (env : CoordEnv) (t : Nat) : Bool :=
  match env.planner t with
  | Except.error _ => false
  | Except.ok d =>
      !cfg.preFinish d &&
        (match env.worker t with
         | Except.ok out => !cfg.postScan out
         | Except.error _ => true)

/-- Turn `t` triggers the pre-worker finish check. -/
def turnFinish (cfg : CoordCfg) (env : CoordEnv) (t : Nat) : Bool :=
  match env.planner t with
  | Except.ok d => cfg.preFinish d
  | Except.error _ => false

/-- Turn `t` ends the loop with `Success`, by either terminal check. -/
def turnSucceeds (cfg : CoordCfg) (env : CoordEnv) (t : Nat) : Bool :=
  match env.planner t with
  | Except.error _ => false
  | Except.ok d =>
      cfg.preFinish d ||
        (match env.worker t with
         | Except.ok out => cfg.postScan out
         | Except.error _ => false)

/-! ## Concrete fixtures used by witnesses and counterexamples -/

/-- A well-formed planner output that proceeds. -/
def proceedText : Str :=
  strL "THOUGHT: keep going\nDECISION: PROCEED\nINSTRUCTION: check the basket"

/-- A well-formed planner output that asks to finish. -/
def finishText : Str :=
  strL "THOUGHT: all done\nDECISION: FINISH\nINSTRUCTION: stop"

/-- A planner output without an `INSTRUCTION:` label, ending in a newline. -/
def c7text : Str := strL "THOUGHT: a\nDECISION: PROCEED\nDo the thing.\n"

/-- A planner output with an `INSTRUCTION:` label. -/
def c7labelText : Str := strL "THOUGHT: x\nINSTRUCTION: do the update\n"

/-- Planner always proceeds, worker never signals (store). -/
def envStoreProceed : CoordEnv :=
  { planner := fun _ => Except.ok proceedText,
    worker := fun _ => Except.ok (strL "step done") }

/-- Planner always proceeds, worker never signals (dev). -/
def envDevProceed : CoordEnv :=
  { planner := fun _ => Except.ok proceedText,
    worker := fun _ => Except.ok (strL "step done") }

/-- Planner asks to finish on every turn, worker output carries no marker. -/
def envDevFinishLoop : CoordEnv :=
  { planner := fun _ => Except.ok finishText,
    worker := fun _ => Except.ok (strL "listed data") }

/-- Planner proceeds on turns 0 and 1 and asks to finish on turn 2. -/
def envStoreFinishAt2 : CoordEnv :=
  { planner := fun t => Except.ok (if t < 2 then proceedText else finishText),
    worker := fun _ => Except.ok (strL "step done") }

/-- Store scenario: worker raises on turn 1, planner finishes on turn 2. -/
def envStoreSoftFail : CoordEnv :=
  { planner := fun t => Except.ok (if t = 2 then finishText else proceedText),
    worker := fun t =>
      if t = 1 then Except.error (strL "boom") else Except.ok (strL "fine") }

/-- Dev scenario: worker raises on turn 1 and emits the completion marker on
turn 2. -/
def envDevSoftFail : CoordEnv :=
  { planner := fun _ => Except.ok proceedText,
    worker := fun t =>
      if t = 1 then Except.error (strL "boom")
      else if t = 2 then Except.ok (strL "[TASK FINISHED] submitted")
      else Except.ok (strL "fine") }

/-! ## Helper lemmas: pagination -/

/-- Running the loop over a well-formed page trace accumulates the concatenation
of the pages, requesting offset `offset` and then each reported `next_offset`,
all with the current limit, and returning on the final sentinel. -/
theorem searchGo_okResponses {α : Type} (fin : Option Int)
    (hfin : fin = none ∨ fin = some (-1)) :
    ∀ (pages : List (List α)) (nexts : List Int),
      nexts.length + 1 = pages.length →
      (∀ n ∈ nexts, ¬ n = -1) →
      ∀ (offset : Int) (limit att : Nat) (acc : List α),
        searchGo offset limit att acc (okResponses fin pages nexts) =
          (SearchResult.done (acc ++ pages.join),
            (offset :: nexts).map (fun o => (o, limit))) := by
  intro pages
  induction pages with
  | nil => intro nexts hlen _ _ _ _ _; simp at hlen
  | cons p ps ih =>
    intro nexts hlen hne offset limit att acc
    cases nexts with
    | nil =>
      have hps : ps = [] := by
        simp only [List.length_nil, List.length_cons] at hlen
        have hz : ps.length = 0 := by omega
        exact List.length_eq_zero.mp hz
      subst hps
      rcases hfin with h | h <;> subst h <;> simp [okResponses, searchGo]
    | cons n ns =>
      have hn : ¬ n = -1 := hne n (List.mem_cons_self n ns)
      have hlen2 : ns.length + 1 = ps.length := by
        simp only [List.length_cons] at hlen; omega
      have hne2 : ∀ m ∈ ns, ¬ m = -1 := fun m hm => hne m (List.mem_cons_of_mem n hm)
      have ihh := ih ns hlen2 hne2 n limit 5 (acc ++ p)
      simp only [okResponses, searchGo, if_neg hn, ihh]
      simp [List.append_assoc]

/-- Global request bound: every run makes at most its current attempt budget of
requests, plus five per successfully fetched page. -/
theorem searchGo_length_bound {α : Type} :
    ∀ (rs : List (PageResp α)) (offset : Int) (limit att : Nat) (acc : List α),
      1 ≤ att →
      (searchGo offset limit att acc rs).2.length ≤
        att + 5 * (okOffsets (searchGo offset limit att acc rs).2 rs).length := by
  intro rs
  induction rs with
  | nil => intro offset limit att acc hatt; simp [searchGo, okOffsets]
  | cons r rest ih =>
    intro offset limit att acc hatt
    cases r with
    | ok items next =>
      cases next with
      | none => simp [searchGo, okOffsets]
      | some n =>
        by_cases hn : n = -1
        · subst hn; simp [searchGo, okOffsets]
        · have h5 := ih n limit 5 (acc ++ items) (by omega)
          simp only [searchGo, if_neg hn]
          simp only [okOffsets, List.length_cons]
          omega
    | exceeded x y =>
      by_cases h2 : 2 ≤ att
      · have h5 := ih offset y (att - 1) acc (by omega)
        simp only [searchGo, if_pos h2]
        simp only [okOffsets, List.length_cons]
        omega
      · simp only [searchGo, if_neg h2]
        simp [okOffsets]
        omega
    | invalidParams =>
      by_cases hl : 1 < limit
      · by_cases h2 : 2 ≤ att
        · have h5 := ih offset 1 (att - 1) acc (by omega)
          simp only [searchGo, if_pos hl, if_pos h2]
          simp only [okOffsets, List.length_cons]
          omega
        · simp only [searchGo, if_pos hl, if_neg h2]
          simp [okOffsets]
          omega
      · simp only [searchGo, if_neg hl]
        simp [okOffsets]
        omega
    | otherErr =>
      simp [searchGo, okOffsets]
      omega

/-- Under the advancing-server condition the successfully fetched offsets are
strictly increasing, and all of them are at least the starting offset. -/
theorem searchGo_okOffsets_mono {α : Type} :
    ∀ (rs : List (PageResp α)) (offset : Int) (limit att : Nat) (acc : List α),
      advancesAt (searchGo offset limit att acc rs).2 rs = true →
      List.Chain' (fun a b => a < b)
          (okOffsets (searchGo offset limit att acc rs).2 rs) ∧
      ∀ o ∈ okOffsets (searchGo offset limit att acc rs).2 rs, offset ≤ o := by
  intro rs
  induction rs with
  | nil => intro offset limit att acc _; simp [searchGo, okOffsets]
  | cons r rest ih =>
    intro offset limit att acc hadv
    cases r with
    | ok items next =>
      cases next with
      | none => simp [searchGo, okOffsets]
      | some n =>
        by_cases hn : n = -1
        · subst hn; simp [searchGo, okOffsets]
        · simp only [searchGo, if_neg hn] at hadv ⊢
          simp only [advancesAt, Bool.and_eq_true, Bool.or_eq_true, beq_iff_eq,
            decide_eq_true_eq] at hadv
          have hlt : offset < n := by
            rcases hadv.1 with h | h
            · exact absurd h hn
            · exact h
          have htail := ih n limit 5 (acc ++ items) hadv.2
          simp only [okOffsets]
          constructor
          · rw [List.chain'_cons']
            refine ⟨?_, htail.1⟩
            intro b hb
            have hmem := List.mem_of_mem_head? hb
            exact lt_of_lt_of_le hlt (htail.2 b hmem)
          · intro o ho
            rcases List.mem_cons.mp ho with h | h
            · exact le_of_eq h.symm
            · exact le_trans (le_of_lt hlt) (htail.2 o h)
    | exceeded x y =>
      by_cases h2 : 2 ≤ att
      · simp only [searchGo, if_pos h2] at hadv ⊢
        simp only [advancesAt, Bool.and_eq_true] at hadv
        have htail := ih offset y (att - 1) acc hadv.2
        simpa [okOffsets] using htail
      · simp [searchGo, if_neg h2, okOffsets]
    | invalidParams =>
      by_cases hl : 1 < limit
      · by_cases h2 : 2 ≤ att
        · simp only [searchGo, if_pos hl, if_pos h2] at hadv ⊢
          simp only [advancesAt, Bool.and_eq_true] at hadv
          have htail := ih offset 1 (att - 1) acc hadv.2
          simpa [okOffsets] using htail
        · simp [searchGo, if_pos hl, if_neg h2, okOffsets]
      · simp [searchGo, if_neg hl, okOffsets]
    | otherErr => simp [searchGo, okOffsets]

/-! ## Claims C1, C2, C6 -/

/-- Claim C1 counterexample: the claim quantifies over every response sequence
the backing endpoint could produce, but when a successful response reports a
`next_offset` equal to an already fetched offset, `search_products` requests the
same page again and appends its items a second time: on the concrete trace below
the page at offset 0 (items `[7]`) is fetched twice and the result is `[7, 7]`,
so the successfully fetched offsets are not strictly increasing. -/
theorem C1_counterexample :
    search_products [PageResp.ok [(7:Nat)] (some 0), PageResp.ok [7] (some (-1))] =
      (SearchResult.done [7, 7], [((0:Int), 10), (0, 10)]) ∧
    ¬ List.Chain' (fun a b => a < b)
        (okOffsets (search_products [PageResp.ok [(7:Nat)] (some 0),
            PageResp.ok [7] (some (-1))]).2
          [PageResp.ok [(7:Nat)] (some 0), PageResp.ok [7] (some (-1))]) := by
  constructor
  · decide
  · have h0 : okOffsets (search_products [PageResp.ok [(7:Nat)] (some 0),
        PageResp.ok [7] (some (-1))]).2
        [PageResp.ok [(7:Nat)] (some 0), PageResp.ok [7] (some (-1))] =
        [(0:Int), 0] := by decide
    rw [h0, List.chain'_cons]
    simp

/-- Claim C1 (amended): for every finite response sequence, `search_products`
returns an accumulated item list (never an exception: the embedding is total on
`ApiException` outcomes) and makes at most `5 * (pages fetched + 1)` requests,
so each page costs at most the 5-attempt retry budget; and, provided every
successful response either reports the sentinel or a `next_offset` strictly
beyond the offset it was served at, the successfully fetched offsets are
strictly increasing, so no page is fetched twice and no page has its items
appended twice. -/
theorem C1_pagination_bounded_no_revisit (rs : List (PageResp Nat))
    (hadv : advancesAt (search_products rs).2 rs = true) :
    (∃ items, (search_products rs).1 = SearchResult.done items ∨
        (search_products rs).1 = SearchResult.pending items) ∧
    (search_products rs).2.length ≤
      5 * ((okOffsets (search_products rs).2 rs).length + 1) ∧
    List.Chain' (fun a b => a < b) (okOffsets (search_products rs).2 rs) := by
  refine ⟨?_, ?_, ?_⟩
  · cases h : (search_products rs).1 with
    | done l => exact ⟨l, Or.inl rfl⟩
    | pending l => exact ⟨l, Or.inr rfl⟩
  · have h := searchGo_length_bound rs 0 10 5 [] (by omega)
    simp only [search_products] at h ⊢
    omega
  · have h := searchGo_okOffsets_mono rs 0 10 5 []
      (by simpa [search_products] using hadv)
    simpa [search_products] using h.1

/-- Witness for C1 at a concrete advancing trace: one page at offset 0, an
overflow retry at offset 2, and a final page with an absent next offset. -/
theorem C1_witness :
    (∃ items, (search_products [PageResp.ok [(1:Nat)] (some 2), PageResp.exceeded 10 3,
        PageResp.ok [9] none]).1 = SearchResult.done items ∨
        (search_products [PageResp.ok [(1:Nat)] (some 2), PageResp.exceeded 10 3,
          PageResp.ok [9] none]).1 = SearchResult.pending items) ∧
    (search_products [PageResp.ok [(1:Nat)] (some 2), PageResp.exceeded 10 3,
        PageResp.ok [9] none]).2.length ≤
      5 * ((okOffsets (search_products [PageResp.ok [(1:Nat)] (some 2),
          PageResp.exceeded 10 3, PageResp.ok [9] none]).2
        [PageResp.ok [(1:Nat)] (some 2), PageResp.exceeded 10 3,
          PageResp.ok [9] none]).length + 1) ∧
    List.Chain' (fun a b => a < b)
      (okOffsets (search_products [PageResp.ok [(1:Nat)] (some 2),
          PageResp.exceeded 10 3, PageResp.ok [9] none]).2
        [PageResp.ok [(1:Nat)] (some 2), PageResp.exceeded 10 3,
          PageResp.ok [9] none]) :=
  C1_pagination_bounded_no_revisit
    [PageResp.ok [1] (some 2), PageResp.exceeded 10 3, PageResp.ok [9] none]
    (by decide)

/-- Claim C2: when a page request fails with an error matched by the exceeded
pattern, the client sets its limit to the second captured number `y` and retries
the same offset (first conjunct, for any remaining attempt budget of at least
two); successful pages are then accumulated in order, the offset advances to
each returned `next_offset`, and the loop stops, returning the concatenation of
all pages, when the final `next_offset` is absent or null (`fin = none`) or `-1`
(second conjunct, instantiating the run after an initial overflow error on the
first page). -/
theorem C2_adaptive_limit_retry_and_concat (x y : Nat) (fin : Option Int)
    (hfin : fin = none ∨ fin = some (-1))
    (pages : List (List Nat)) (nexts : List Int)
    (hlen : nexts.length + 1 = pages.length)
    (hne : ∀ n ∈ nexts, ¬ n = -1) :
    (∀ (off : Int) (lim att : Nat) (acc : List Nat) (rs : List (PageResp Nat)),
        2 ≤ att →
        searchGo off lim att acc (PageResp.exceeded x y :: rs) =
          ((searchGo off y (att - 1) acc rs).1,
            (off, lim) :: (searchGo off y (att - 1) acc rs).2)) ∧
    search_products (PageResp.exceeded x y :: okResponses fin pages nexts) =
      (SearchResult.done pages.join,
        ((0:Int), 10) :: ((0:Int) :: nexts).map (fun o => (o, y))) := by
  constructor
  · intro off lim att acc rs hatt
    simp [searchGo, if_pos hatt]
  · have h := searchGo_okResponses fin hfin pages nexts hlen hne 0 y 4 []
    have h25 : (2:Nat) ≤ 5 := by omega
    simp only [search_products, searchGo, if_pos h25]
    norm_num [h]

/-- Witness for C2: requested limit 10 is refused as exceeding the true limit 3;
page 1 is retried at offset 0 with limit 3, then the cursor advances to 3 and
the `-1` sentinel ends the run with the pages concatenated in order. -/
theorem C2_witness :
    search_products (PageResp.exceeded 10 3 ::
        okResponses (some (-1)) [[1,2,3],[4,5]] [3]) =
      (SearchResult.done [1,2,3,4,5], [((0:Int), 10), (0, 3), (3, 3)]) := by
  have h := (C2_adaptive_limit_retry_and_concat 10 3 (some (-1)) (Or.inr rfl)
      [[1,2,3],[4,5]] [3] (by decide) (by decide)).2
  simpa using h

/-- Claim C6 counterexample: after an invalid-parameter error at the initial
limit 10, the next request is made with limit 1, not with the halved limit 5:
the code jumps directly to 1 instead of shrinking by halving. -/
theorem C6_counterexample :
    search_products [PageResp.invalidParams, PageResp.ok [(1:Nat)] none] =
      (SearchResult.done [1], [((0:Int), 10), (0, 1)]) ∧
    ¬ (search_products [PageResp.invalidParams,
        PageResp.ok [(1:Nat)] none]).2.get? 1 = some ((0:Int), 5) := by
  decide

/-- Claim C6 (amended): when a page request fails with an invalid-parameter
error and the limit is still above 1, the client sets the limit directly to 1
(not by repeated halving) and retries the same offset; when the limit is already
1 it aborts and returns the items accumulated so far without raising, ignoring
any further responses. -/
theorem C6_invalid_params_limit_reset (p : List Nat) (n : Int) (hn : ¬ n = -1)
    (rs : List (PageResp Nat)) :
    search_products (PageResp.ok p (some n) :: PageResp.invalidParams ::
        PageResp.invalidParams :: rs) =
      (SearchResult.done p, [((0:Int), 10), (n, 10), (n, 1)]) := by
  simp [search_products, searchGo, if_neg hn]

/-- Witness for C6: one accumulated page, then two invalid-parameter errors;
the limit drops from 10 to 1 and the partial result `[5]` is returned. -/
theorem C6_witness :
    search_products [PageResp.ok [(5:Nat)] (some 4), PageResp.invalidParams,
        PageResp.invalidParams, PageResp.otherErr] =
      (SearchResult.done [5], [((0:Int), 10), (4, 10), (4, 1)]) :=
  C6_invalid_params_limit_reset [5] 4 (by decide) [PageResp.otherErr]

/-! ## Helper lemmas: logger -/

/-- Lemma: `logAll` appends its messages to the buffer in order. -/
theorem ActionLogger.logs_logAll :
    ∀ (msgs : List String) (l : ActionLogger), (l.logAll msgs).logs = l.logs ++ msgs := by
  intro msgs
  induction msgs with
  | nil => intro l; simp [ActionLogger.logAll]
  | cons m ms ih =>
    intro l
    simp [ActionLogger.logAll, ActionLogger.log] at ih ⊢
    rw [ih]
    simp

/-! ## Claims C9, C3, C10 -/

/-- Claim C9: `clear()` followed by `get_history_entry()` with no intervening
append returns the literal sentinel, which is not the empty string (and the
embedding is total, so no exception); after one or more appended lines the entry
is those lines joined by newlines. -/
theorem C9_logger_sentinel (l : ActionLogger) (msgs : List String) (h : ¬ msgs = []) :
    (l.clear).get_history_entry = "No API interactions recorded this turn." ∧
    ¬ (l.clear).get_history_entry = "" ∧
    ((l.clear).logAll msgs).get_history_entry = String.intercalate "\n" msgs := by
  have h1 : (l.clear).get_history_entry = "No API interactions recorded this turn." := rfl
  refine ⟨h1, by rw [h1]; decide, ?_⟩
  have hl : ((l.clear).logAll msgs).logs = msgs := by
    rw [ActionLogger.logs_logAll]
    simp [ActionLogger.clear]
  simp [ActionLogger.get_history_entry, hl, h]

/-- Witness for C9 on a concrete logger and two appended lines. -/
theorem C9_witness :
    (ActionLogger.clear { logs := ["old"] }).get_history_entry =
      "No API interactions recorded this turn." ∧
    ¬ (ActionLogger.clear { logs := ["old"] }).get_history_entry = "" ∧
    ((ActionLogger.clear { logs := ["old"] }).logAll ["a", "b"]).get_history_entry =
      String.intercalate "\n" ["a", "b"] :=
  C9_logger_sentinel { logs := ["old"] } ["a", "b"] (by decide)

/-- Claim C3 counterexample: in the dev variant the read tools do not consult
the completion latch; with the latch already set, `list_employees` still
performs its remote `/employees/list` dispatch. -/
theorem C3_counterexample :
    (list_employees (Except.ok "page1")
        { completed := true, dispatched := [] }).2.dispatched = ["/employees/list"] ∧
    ¬ (["/employees/list"] : List String) = [] := by
  constructor
  · rfl
  · decide

/-- Claim C3 (amended): once the completed latch is set, every store tool and
the dev finalize tools are refused or return a no-op diagnostic with the state
unchanged, hence with no remote dispatch — in particular a second finalize call
(`checkout` in the store variant, `respond` in the dev variant) returns its
already-completed message without a second remote call; `finish_task` performs
no dispatch; and no modelled operation (including the unguarded dev read tool
`list_employees`) ever resets the latch to false.  The dev read tools themselves
are not guarded, as the counterexample shows. -/
theorem C3_completion_latch (s : ToolState) (h : s.completed = true) :
    (∀ rs : List (PageResp Nat), search_products_tool rs s = ([], s)) ∧
    (∀ r, get_basket r s = (BasketView.completedView, s)) ∧
    (∀ sku q r, add_to_basket sku q r s = ("Error: Task completed.", s)) ∧
    (∀ sku q r, remove_from_basket sku q r s = ("Error: Task completed.", s)) ∧
    (∀ c r, apply_coupon c r s = ("Error: Task completed.", s)) ∧
    (∀ env, checkout env s = (CheckoutResult.ret "Order already checked out.", s)) ∧
    (∀ r, respond r s = ("Task already completed.", s)) ∧
    (∀ reason, (finish_task reason s).2.dispatched = s.dispatched ∧
      (finish_task reason s).2.completed = true) ∧
    (∀ s2 : ToolState, s2.completed = true →
      ((∀ r, (list_employees r s2).2.completed = true) ∧
        (∀ r, (respond r s2).2.completed = true) ∧
        (∀ env, (checkout env s2).2.completed = true) ∧
        (∀ reason, (finish_task reason s2).2.completed = true) ∧
        (∀ rs : List (PageResp Nat), (search_products_tool rs s2).2.completed = true) ∧
        (∀ sku q ru, (add_to_basket sku q ru s2).2.completed = true ∧
          (remove_from_basket sku q ru s2).2.completed = true ∧
          (apply_coupon sku ru s2).2.completed = true) ∧
        (∀ rg, (get_basket rg s2).2.completed = true))) := by
  refine ⟨?_, ?_, ?_, ?_, ?_, ?_, ?_, ?_, ?_⟩
  · intro rs; simp [search_products_tool, h]
  · intro r; simp [get_basket, h]
  · intro sku q r; simp [add_to_basket, h]
  · intro sku q r; simp [remove_from_basket, h]
  · intro c r; simp [apply_coupon, h]
  · intro env; simp [checkout, h]
  · intro r; simp [respond, h]
  · intro reason; simp [finish_task]
  · intro s2 h2
    refine ⟨?_, ?_, ?_, ?_, ?_, ?_, ?_⟩
    · intro r
      cases r with
      | ok dump => simp [list_employees, h2]
      | error e => simp [list_employees, h2]
    · intro r; simp [respond, h2]
    · intro env; simp [checkout, h2]
    · intro reason; simp [finish_task]
    · intro rs; simp [search_products_tool, h2]
    · intro sku q ru
      refine ⟨?_, ?_, ?_⟩ <;>
        simp [add_to_basket, remove_from_basket, apply_coupon, h2]
    · intro rg; simp [get_basket, h2]

/-- Witness for C3 at a concrete completed state: the second checkout and the
second respond are refused with no state change. -/
theorem C3_witness :
    checkout { viewBasket := Except.ok (some ["a"]), checkoutResp := Except.ok "rcpt" }
        { completed := true, dispatched := ["/respond"] } =
      (CheckoutResult.ret "Order already checked out.",
        { completed := true, dispatched := ["/respond"] }) ∧
    respond (Except.ok ()) { completed := true, dispatched := ["/respond"] } =
      ("Task already completed.", { completed := true, dispatched := ["/respond"] }) := by
  have h := C3_completion_latch { completed := true, dispatched := ["/respond"] } rfl
  exact ⟨h.2.2.2.2.2.1 _, h.2.2.2.2.2.2.1 _⟩

/-- Claim C10: store `checkout` flips the latch only after the checkout dispatch
succeeds.  From a non-completed state: if the checkout dispatch raises, the call
re-raises `Checkout Failed: ...` and the latch stays false (so a later checkout
call still reaches the remote dispatch, as the success conjunct applied to the
post state shows); if the pre-check view finds a null or empty basket, the call
returns `ERROR: Basket is empty!` having dispatched only the basket view, not
the checkout request; on success the latch is set and the receipt returned. -/
theorem C10_checkout_latch_order (s : ToolState) (h : s.completed = false)
    (items : List String) (hi : ¬ items = []) (e receipt : String) :
    checkout { viewBasket := Except.ok (some items), checkoutResp := Except.error e } s =
      (CheckoutResult.raised ("Checkout Failed: " ++ e),
        { completed := false,
          dispatched := s.dispatched ++ ["/basket/get", "/basket/checkout"] }) ∧
    checkout { viewBasket := Except.error e, checkoutResp := Except.error e } s =
      (CheckoutResult.raised ("Checkout Failed: " ++ e),
        { completed := false,
          dispatched := s.dispatched ++ ["/basket/get", "/basket/checkout"] }) ∧
    checkout { viewBasket := Except.ok none, checkoutResp := Except.ok receipt } s =
      (CheckoutResult.ret "ERROR: Basket is empty!",
        { completed := false, dispatched := s.dispatched ++ ["/basket/get"] }) ∧
    checkout { viewBasket := Except.ok (some []), checkoutResp := Except.ok receipt } s =
      (CheckoutResult.ret "ERROR: Basket is empty!",
        { completed := false, dispatched := s.dispatched ++ ["/basket/get"] }) ∧
    checkout { viewBasket := Except.ok (some items), checkoutResp := Except.ok receipt } s =
      (CheckoutResult.ret ("Checkout Success! Receipt: " ++ receipt),
        { completed := true,
          dispatched := s.dispatched ++ ["/basket/get", "/basket/checkout"] }) := by
  have hemp : (items.isEmpty) = false := by
    cases items with
    | nil => exact absurd rfl hi
    | cons a l => rfl
  cases s with
  | mk c d =>
    simp only at h
    subst h
    refine ⟨?_, ?_, ?_, ?_, ?_⟩ <;>
      simp [checkout, hemp]

/-- Witness for C10 at a concrete state and basket. -/
theorem C10_witness :
    checkout { viewBasket := Except.ok (some ["sku1"]), checkoutResp := Except.error "boom" }
        { completed := false, dispatched := [] } =
      (CheckoutResult.raised ("Checkout Failed: " ++ "boom"),
        { completed := false, dispatched := [] ++ ["/basket/get", "/basket/checkout"] }) ∧
    checkout { viewBasket := Except.error "boom", checkoutResp := Except.error "boom" }
        { completed := false, dispatched := [] } =
      (CheckoutResult.raised ("Checkout Failed: " ++ "boom"),
        { completed := false, dispatched := [] ++ ["/basket/get", "/basket/checkout"] }) ∧
    checkout { viewBasket := Except.ok none, checkoutResp := Except.ok "rcpt" }
        { completed := false, dispatched := [] } =
      (CheckoutResult.ret "ERROR: Basket is empty!",
        { completed := false, dispatched := [] ++ ["/basket/get"] }) ∧
    checkout { viewBasket := Except.ok (some []), checkoutResp := Except.ok "rcpt" }
        { completed := false, dispatched := [] } =
      (CheckoutResult.ret "ERROR: Basket is empty!",
        { completed := false, dispatched := [] ++ ["/basket/get"] }) ∧
    checkout { viewBasket := Except.ok (some ["sku1"]), checkoutResp := Except.ok "rcpt" }
        { completed := false, dispatched := [] } =
      (CheckoutResult.ret ("Checkout Success! Receipt: " ++ "rcpt"),
        { completed := true, dispatched := [] ++ ["/basket/get", "/basket/checkout"] }) :=
  C10_checkout_latch_order { completed := false, dispatched := [] } rfl
    ["sku1"] (by decide) "boom" "rcpt"

/-! ## Helper lemmas: coordinator -/

/-- Unfolding lemma: a turn whose planner output finishes. -/
theorem coordTurns_finish (cfg : CoordCfg) (env : CoordEnv) (r turn : Nat)
    (hist : List Str) (d : Str) (hp : env.planner turn = Except.ok d)
    (hf : cfg.preFinish d = true) :
    coordTurns cfg env (r + 1) turn hist =
      { outcome := CoordOutcome.ret "Success", plannerCalls := 1,
        executed := [], history := hist } := by
  simp [coordTurns, hp, hf]

/-- Unfolding lemma: a turn whose successful worker output carries the
completion marker. -/
theorem coordTurns_scan (cfg : CoordCfg) (env : CoordEnv) (r turn : Nat)
    (hist : List Str) (d out : Str) (hp : env.planner turn = Except.ok d)
    (hf : cfg.preFinish d = false) (hw : env.worker turn = Except.ok out)
    (hs : cfg.postScan out = true) :
    coordTurns cfg env (r + 1) turn hist =
      { outcome := CoordOutcome.ret "Success", plannerCalls := 1,
        executed := [cfg.parseInst d], history := hist } := by
  simp [coordTurns, hp, hf, hw, hs]

/-- Unfolding lemma: a signal-free turn with a successful worker. -/
theorem coordTurns_step_ok (cfg : CoordCfg) (env : CoordEnv) (r turn : Nat)
    (hist : List Str) (d out : Str) (hp : env.planner turn = Except.ok d)
    (hf : cfg.preFinish d = false) (hw : env.worker turn = Except.ok out)
    (hs : cfg.postScan out = false) :
    coordTurns cfg env (r + 1) turn hist =
      { outcome := (coordTurns cfg env r (turn + 1)
          (hist ++ [instEntry (cfg.parseInst d), outEntry out])).outcome,
        plannerCalls := (coordTurns cfg env r (turn + 1)
          (hist ++ [instEntry (cfg.parseInst d), outEntry out])).plannerCalls + 1,
        executed := cfg.parseInst d :: (coordTurns cfg env r (turn + 1)
          (hist ++ [instEntry (cfg.parseInst d), outEntry out])).executed,
        history := (coordTurns cfg env r (turn + 1)
          (hist ++ [instEntry (cfg.parseInst d), outEntry out])).history } := by
  simp [coordTurns, hp, hf, hw, hs]

/-- Unfolding lemma: a turn whose worker raises; the exception is caught, the
instruction and error entries are appended, and the loop continues. -/
theorem coordTurns_step_err (cfg : CoordCfg) (env : CoordEnv) (r turn : Nat)
    (hist : List Str) (d e : Str) (hp : env.planner turn = Except.ok d)
    (hf : cfg.preFinish d = false) (hw : env.worker turn = Except.error e) :
    coordTurns cfg env (r + 1) turn hist =
      { outcome := (coordTurns cfg env r (turn + 1)
          (hist ++ [instEntry (cfg.parseInst d), errEntry e])).outcome,
        plannerCalls := (coordTurns cfg env r (turn + 1)
          (hist ++ [instEntry (cfg.parseInst d), errEntry e])).plannerCalls + 1,
        executed := cfg.parseInst d :: (coordTurns cfg env r (turn + 1)
          (hist ++ [instEntry (cfg.parseInst d), errEntry e])).executed,
        history := (coordTurns cfg env r (turn + 1)
          (hist ++ [instEntry (cfg.parseInst d), errEntry e])).history } := by
  simp [coordTurns, hp, hf, hw]

/-- The final history extends the incoming history. -/
theorem coordTurns_history_append (cfg : CoordCfg) (env : CoordEnv) :
    ∀ (r turn : Nat) (hist : List Str),
      ∃ tail, (coordTurns cfg env r turn hist).history = hist ++ tail := by
  intro r
  induction r with
  | zero => intro turn hist; exact ⟨[], by simp [coordTurns]⟩
  | succ r ih =>
    intro turn hist
    cases hp : env.planner turn with
    | error e => exact ⟨[], by simp [coordTurns, hp]⟩
    | ok d =>
      cases hf : cfg.preFinish d with
      | true =>
        refine ⟨[], ?_⟩
        rw [coordTurns_finish cfg env r turn hist d hp hf]
        simp
      | false =>
        cases hw : env.worker turn with
        | ok out =>
          cases hs : cfg.postScan out with
          | true =>
            refine ⟨[], ?_⟩
            rw [coordTurns_scan cfg env r turn hist d out hp hf hw hs]
            simp
          | false =>
            obtain ⟨tl, htl⟩ := ih (turn + 1)
              (hist ++ [instEntry (cfg.parseInst d), outEntry out])
            refine ⟨[instEntry (cfg.parseInst d), outEntry out] ++ tl, ?_⟩
            rw [coordTurns_step_ok cfg env r turn hist d out hp hf hw hs]
            show (coordTurns cfg env r (turn + 1)
              (hist ++ [instEntry (cfg.parseInst d), outEntry out])).history =
              hist ++ ([instEntry (cfg.parseInst d), outEntry out] ++ tl)
            rw [htl, List.append_assoc]
        | error e =>
          obtain ⟨tl, htl⟩ := ih (turn + 1)
            (hist ++ [instEntry (cfg.parseInst d), errEntry e])
          refine ⟨[instEntry (cfg.parseInst d), errEntry e] ++ tl, ?_⟩
          rw [coordTurns_step_err cfg env r turn hist d e hp hf hw]
          show (coordTurns cfg env r (turn + 1)
            (hist ++ [instEntry (cfg.parseInst d), errEntry e])).history =
            hist ++ ([instEntry (cfg.parseInst d), errEntry e] ++ tl)
          rw [htl, List.append_assoc]

/-- Both agent call counts are bounded by the remaining turn budget. -/
theorem coordTurns_calls_le (cfg : CoordCfg) (env : CoordEnv) :
    ∀ (r turn : Nat) (hist : List Str),
      (coordTurns cfg env r turn hist).plannerCalls ≤ r ∧
      (coordTurns cfg env r turn hist).executed.length ≤ r := by
  intro r
  induction r with
  | zero => intro turn hist; simp [coordTurns]
  | succ r ih =>
    intro turn hist
    cases hp : env.planner turn with
    | error e => simp [coordTurns, hp]
    | ok d =>
      cases hf : cfg.preFinish d with
      | true => rw [coordTurns_finish cfg env r turn hist d hp hf]; simp
      | false =>
        cases hw : env.worker turn with
        | ok out =>
          cases hs : cfg.postScan out with
          | true => rw [coordTurns_scan cfg env r turn hist d out hp hf hw hs]; simp
          | false =>
            have hr := ih (turn + 1) (hist ++ [instEntry (cfg.parseInst d), outEntry out])
            rw [coordTurns_step_ok cfg env r turn hist d out hp hf hw hs]
            simp only [List.length_cons]
            omega
        | error e =>
          have hr := ih (turn + 1) (hist ++ [instEntry (cfg.parseInst d), errEntry e])
          rw [coordTurns_step_err cfg env r turn hist d e hp hf hw]
          simp only [List.length_cons]
          omega

/-- With no terminal signal on any remaining turn, the loop exhausts the budget
and returns `Max turns reached`. -/
theorem coordTurns_noSignal_max (cfg : CoordCfg) (env : CoordEnv) :
    ∀ (r turn : Nat) (hist : List Str),
      (∀ u, u < r → noSignal cfg env (turn + u) = true) →
      (coordTurns cfg env r turn hist).outcome = CoordOutcome.ret "Max turns reached" := by
  intro r
  induction r with
  | zero => intro turn hist _; rfl
  | succ r ih =>
    intro turn hist h
    have h0 := h 0 (Nat.succ_pos r)
    rw [Nat.add_zero] at h0
    have hshift : ∀ u, u < r → noSignal cfg env (turn + 1 + u) = true := by
      intro u hu
      have hx := h (u + 1) (by omega)
      have harr : turn + (u + 1) = turn + 1 + u := by omega
      rwa [harr] at hx
    cases hp : env.planner turn with
    | error e => simp [noSignal, hp] at h0
    | ok d =>
      simp only [noSignal, hp] at h0
      cases hf : cfg.preFinish d with
      | true => simp [hf] at h0
      | false =>
        simp only [hf, Bool.not_false, Bool.true_and] at h0
        cases hw : env.worker turn with
        | ok out =>
          simp only [hw] at h0
          cases hs : cfg.postScan out with
          | true => simp [hs] at h0
          | false =>
            rw [coordTurns_step_ok cfg env r turn hist d out hp hf hw hs]
            exact ih (turn + 1) _ hshift
        | error e =>
          rw [coordTurns_step_err cfg env r turn hist d e hp hf hw]
          exact ih (turn + 1) _ hshift

/-- A turn that raises either terminal signal ends the run with `Success`. -/
theorem coordTurns_succeeds (cfg : CoordCfg) (env : CoordEnv) (r turn : Nat)
    (hist : List Str) (h : turnSucceeds cfg env turn = true) :
    (coordTurns cfg env (r + 1) turn hist).outcome = CoordOutcome.ret "Success" := by
  cases hp : env.planner turn with
  | error e => simp [turnSucceeds, hp] at h
  | ok d =>
    simp only [turnSucceeds, hp] at h
    cases hf : cfg.preFinish d with
    | true => rw [coordTurns_finish cfg env r turn hist d hp hf]
    | false =>
      simp only [hf, Bool.false_or] at h
      cases hw : env.worker turn with
      | ok out =>
        simp only [hw] at h
        rw [coordTurns_scan cfg env r turn hist d out hp hf hw h]
      | error e => simp [hw] at h

/-- The first turn whose planner output triggers the pre-worker finish check
(after signal-free turns) ends the run with `Success`, with exactly that many
worker executions and one more planner call. -/
theorem coordTurns_first_finish (cfg : CoordCfg) (env : CoordEnv) :
    ∀ (t r turn : Nat) (hist : List Str), t < r →
      (∀ u, u < t → noSignal cfg env (turn + u) = true) →
      turnFinish cfg env (turn + t) = true →
      (coordTurns cfg env r turn hist).outcome = CoordOutcome.ret "Success" ∧
      (coordTurns cfg env r turn hist).executed.length = t ∧
      (coordTurns cfg env r turn hist).plannerCalls = t + 1 := by
  intro t
  induction t with
  | zero =>
    intro r turn hist hr _ hfin
    cases r with
    | zero => omega
    | succ r =>
      rw [Nat.add_zero] at hfin
      cases hp : env.planner turn with
      | error e => simp [turnFinish, hp] at hfin
      | ok d =>
        simp only [turnFinish, hp] at hfin
        rw [coordTurns_finish cfg env r turn hist d hp hfin]
        exact ⟨rfl, rfl, rfl⟩
  | succ t ih =>
    intro r turn hist hr hpre hfin
    cases r with
    | zero => omega
    | succ r =>
      have h0 := hpre 0 (Nat.succ_pos t)
      rw [Nat.add_zero] at h0
      have hpre2 : ∀ u, u < t → noSignal cfg env (turn + 1 + u) = true := by
        intro u hu
        have hx := hpre (u + 1) (by omega)
        have harr : turn + (u + 1) = turn + 1 + u := by omega
        rwa [harr] at hx
      have hfin2 : turnFinish cfg env (turn + 1 + t) = true := by
        have harr : turn + (t + 1) = turn + 1 + t := by omega
        rwa [harr] at hfin
      cases hp : env.planner turn with
      | error e => simp [noSignal, hp] at h0
      | ok d =>
        simp only [noSignal, hp] at h0
        cases hf : cfg.preFinish d with
        | true => simp [hf] at h0
        | false =>
          simp only [hf, Bool.not_false, Bool.true_and] at h0
          cases hw : env.worker turn with
          | ok out =>
            simp only [hw] at h0
            cases hs : cfg.postScan out with
            | true => simp [hs] at h0
            | false =>
              have ihh := ih r (turn + 1)
                (hist ++ [instEntry (cfg.parseInst d), outEntry out])
                (by omega) hpre2 hfin2
              rw [coordTurns_step_ok cfg env r turn hist d out hp hf hw hs]
              refine ⟨ihh.1, ?_, ?_⟩
              · simp only [List.length_cons, ihh.2.1]
              · simp only [ihh.2.2]
          | error e =>
            have ihh := ih r (turn + 1)
              (hist ++ [instEntry (cfg.parseInst d), errEntry e])
              (by omega) hpre2 hfin2
            rw [coordTurns_step_err cfg env r turn hist d e hp hf hw]
            refine ⟨ihh.1, ?_, ?_⟩
            · simp only [List.length_cons, ihh.2.1]
            · simp only [ihh.2.2]

/-- A turn on which the worker raises (after signal-free turns) leaves the
instruction entry and the error entry in the final history, and the loop keeps
running: a terminal signal on the following turn still ends the run with
`Success`. -/
theorem coordTurns_soft_fail (cfg : CoordCfg) (env : CoordEnv) :
    ∀ (t r turn : Nat) (hist : List Str) (d e : Str), t < r →
      (∀ u, u < t → noSignal cfg env (turn + u) = true) →
      env.planner (turn + t) = Except.ok d →
      cfg.preFinish d = false →
      env.worker (turn + t) = Except.error e →
      (instEntry (cfg.parseInst d) ∈ (coordTurns cfg env r turn hist).history ∧
        errEntry e ∈ (coordTurns cfg env r turn hist).history) ∧
      (t + 1 < r → turnSucceeds cfg env (turn + t + 1) = true →
        (coordTurns cfg env r turn hist).outcome = CoordOutcome.ret "Success") := by
  intro t
  induction t with
  | zero =>
    intro r turn hist d e hr _ hp hf hw
    cases r with
    | zero => omega
    | succ r =>
      rw [Nat.add_zero] at hp hw
      rw [coordTurns_step_err cfg env r turn hist d e hp hf hw]
      obtain ⟨tl, htl⟩ := coordTurns_history_append cfg env r (turn + 1)
        (hist ++ [instEntry (cfg.parseInst d), errEntry e])
      constructor
      · constructor
        · show instEntry (cfg.parseInst d) ∈ (coordTurns cfg env r (turn + 1)
            (hist ++ [instEntry (cfg.parseInst d), errEntry e])).history
          rw [htl]
          simp
        · show errEntry e ∈ (coordTurns cfg env r (turn + 1)
            (hist ++ [instEntry (cfg.parseInst d), errEntry e])).history
          rw [htl]
          simp
      · intro h1 hsucc
        cases r with
        | zero => omega
        | succ r2 =>
          show (coordTurns cfg env (r2 + 1) (turn + 1)
            (hist ++ [instEntry (cfg.parseInst d), errEntry e])).outcome =
            CoordOutcome.ret "Success"
          have harr : turn + 0 + 1 = turn + 1 := by omega
          rw [harr] at hsucc
          exact coordTurns_succeeds cfg env r2 (turn + 1) _ hsucc
  | succ t ih =>
    intro r turn hist d e hr hpre hp hf hw
    cases r with
    | zero => omega
    | succ r =>
      have h0 := hpre 0 (Nat.succ_pos t)
      rw [Nat.add_zero] at h0
      have hpre2 : ∀ u, u < t → noSignal cfg env (turn + 1 + u) = true := by
        intro u hu
        have hx := hpre (u + 1) (by omega)
        have harr : turn + (u + 1) = turn + 1 + u := by omega
        rwa [harr] at hx
      have hp2 : env.planner (turn + 1 + t) = Except.ok d := by
        have harr : turn + (t + 1) = turn + 1 + t := by omega
        rwa [harr] at hp
      have hw2 : env.worker (turn + 1 + t) = Except.error e := by
        have harr : turn + (t + 1) = turn + 1 + t := by omega
        rwa [harr] at hw
      cases hq : env.planner turn with
      | error e2 => simp [noSignal, hq] at h0
      | ok d2 =>
        simp only [noSignal, hq] at h0
        cases hf2 : cfg.preFinish d2 with
        | true => simp [hf2] at h0
        | false =>
          simp only [hf2, Bool.not_false, Bool.true_and] at h0
          cases hw0 : env.worker turn with
          | ok out =>
            simp only [hw0] at h0
            cases hs : cfg.postScan out with
            | true => simp [hs] at h0
            | false =>
              have ihh := ih r (turn + 1)
                (hist ++ [instEntry (cfg.parseInst d2), outEntry out]) d e
                (by omega) hpre2 hp2 hf hw2
              rw [coordTurns_step_ok cfg env r turn hist d2 out hq hf2 hw0 hs]
              refine ⟨ihh.1, ?_⟩
              intro h1 hsucc
              have harr : turn + 1 + t + 1 = turn + (t + 1) + 1 := by omega
              rw [harr] at ihh
              exact ihh.2 (by omega) hsucc
          | error e2 =>
            have ihh := ih r (turn + 1)
              (hist ++ [instEntry (cfg.parseInst d2), errEntry e2]) d e
              (by omega) hpre2 hp2 hf hw2
            rw [coordTurns_step_err cfg env r turn hist d2 e2 hq hf2 hw0]
            refine ⟨ihh.1, ?_⟩
            intro h1 hsucc
            have harr : turn + 1 + t + 1 = turn + (t + 1) + 1 := by omega
            rw [harr] at ihh
            exact ihh.2 (by omega) hsucc

/-! ## Claims C4, C5, C8 -/

/-- Claim C4: for every planner and worker behaviour, both coordinator variants
make at most 7 planner calls and at most 7 worker executions per task; when no
turn produces a success signal (in particular for a planner that answers PROCEED
on every turn) the run returns the string `Max turns reached`, which differs
from `Success` and from the raised-exception outcome. -/
theorem C4_turn_bound (envS envD : CoordEnv)
    (hS : ∀ u, u < 7 → noSignal storeCfg envS u = true)
    (hD : ∀ u, u < 7 → noSignal devCfg envD u = true) :
    (∀ env : CoordEnv,
        (run_coordinator_store env).plannerCalls ≤ 7 ∧
        (run_coordinator_store env).executed.length ≤ 7 ∧
        (run_coordinator_dev env).plannerCalls ≤ 7 ∧
        (run_coordinator_dev env).executed.length ≤ 7) ∧
    (run_coordinator_store envS).outcome = CoordOutcome.ret "Max turns reached" ∧
    (run_coordinator_dev envD).outcome = CoordOutcome.ret "Max turns reached" ∧
    ¬ ("Max turns reached" = "Success") ∧
    (∀ e : Str, ¬ CoordOutcome.ret "Max turns reached" = CoordOutcome.raised e) := by
  refine ⟨?_, ?_, ?_, by decide, ?_⟩
  · intro env
    have h1 := coordTurns_calls_le storeCfg env 7 0 []
    have h2 := coordTurns_calls_le devCfg env 7 0 []
    exact ⟨h1.1, h1.2, h2.1, h2.2⟩
  · exact coordTurns_noSignal_max storeCfg envS 7 0 []
      (by intro u hu; simpa using hS u hu)
  · exact coordTurns_noSignal_max devCfg envD 7 0 []
      (by intro u hu; simpa using hD u hu)
  · intro e h
    exact CoordOutcome.noConfusion h

/-- Witness for C4 with always-PROCEED planners in both variants. -/
theorem C4_witness :
    (run_coordinator_store envStoreProceed).outcome =
      CoordOutcome.ret "Max turns reached" ∧
    (run_coordinator_dev envDevProceed).outcome =
      CoordOutcome.ret "Max turns reached" :=
  ⟨(C4_turn_bound envStoreProceed envDevProceed (by decide) (by decide)).2.1,
    (C4_turn_bound envStoreProceed envDevProceed (by decide) (by decide)).2.2.1⟩

/-- Claim C5 counterexample: in the dev variant a planner output whose parsed
decision is FINISH does not terminate the loop, and the executor does run on
that turn: with a planner that answers FINISH on every turn the dev coordinator
runs the worker on all 7 turns and ends with `Max turns reached`, not an
immediate `Success` with no execution. -/
theorem C5_counterexample :
    finishP finishText = true ∧
    (run_coordinator_dev envDevFinishLoop).outcome =
      CoordOutcome.ret "Max turns reached" ∧
    (run_coordinator_dev envDevFinishLoop).executed.length = 7 := by
  refine ⟨by decide, by decide, by decide⟩

/-- Claim C5 (amended): in the store variant, the first turn whose parsed
decision contains FINISH (after turns with no terminal signal) terminates the
loop successfully at once: the run returns `Success`, the executor ran only on
the earlier turns, and the planner was called once more than that.  The dev
variant does not act on the parsed decision (its FINISH branch is a `pass`), as
the counterexample shows. -/
theorem C5_finish_short_circuit (env : CoordEnv) (t : Nat) (ht : t < 7)
    (hpre : ∀ u, u < t → noSignal storeCfg env u = true)
    (hfin : turnFinish storeCfg env t = true) :
    (run_coordinator_store env).outcome = CoordOutcome.ret "Success" ∧
    (run_coordinator_store env).executed.length = t ∧
    (run_coordinator_store env).plannerCalls = t + 1 :=
  coordTurns_first_finish storeCfg env t 7 0 [] ht
    (by intro u hu; simpa using hpre u hu) (by simpa using hfin)

/-- Witness for C5: the planner proceeds on turns 0 and 1 and finishes on
turn 2; the store run succeeds with exactly two worker executions. -/
theorem C5_witness :
    (run_coordinator_store envStoreFinishAt2).outcome = CoordOutcome.ret "Success" ∧
    (run_coordinator_store envStoreFinishAt2).executed.length = 2 ∧
    (run_coordinator_store envStoreFinishAt2).plannerCalls = 2 + 1 :=
  C5_finish_short_circuit envStoreFinishAt2 2 (by omega) (by decide) (by decide)

/-- Claim C8: in both variants, a worker exception on some turn is caught, the
instruction entry and the (doubled-tag) error entry are appended to the history
that the run finally carries, and the loop continues: a terminal signal on the
following turn still ends the same run with `Success`. -/
theorem C8_soft_failure_continuation
    (envS envD : CoordEnv) (tS tD : Nat) (dS dD eS eD : Str)
    (htS : tS < 7) (hpreS : ∀ u, u < tS → noSignal storeCfg envS u = true)
    (hpS : envS.planner tS = Except.ok dS) (hfS : finishP dS = false)
    (hwS : envS.worker tS = Except.error eS)
    (htD : tD < 7) (hpreD : ∀ u, u < tD → noSignal devCfg envD u = true)
    (hpD : envD.planner tD = Except.ok dD)
    (hwD : envD.worker tD = Except.error eD) :
    (instEntry (store_parseInstruction dS) ∈ (run_coordinator_store envS).history ∧
      errEntry eS ∈ (run_coordinator_store envS).history ∧
      (tS + 1 < 7 → turnSucceeds storeCfg envS (tS + 1) = true →
        (run_coordinator_store envS).outcome = CoordOutcome.ret "Success")) ∧
    (instEntry (dev_parseInstruction dD) ∈ (run_coordinator_dev envD).history ∧
      errEntry eD ∈ (run_coordinator_dev envD).history ∧
      (tD + 1 < 7 → turnSucceeds devCfg envD (tD + 1) = true →
        (run_coordinator_dev envD).outcome = CoordOutcome.ret "Success")) := by
  have hS := coordTurns_soft_fail storeCfg envS tS 7 0 [] dS eS htS
    (by intro u hu; simpa using hpreS u hu) (by simpa using hpS) hfS
    (by simpa using hwS)
  have hD := coordTurns_soft_fail devCfg envD tD 7 0 [] dD eD htD
    (by intro u hu; simpa using hpreD u hu) (by simpa using hpD) rfl
    (by simpa using hwD)
  refine ⟨⟨hS.1.1, hS.1.2, ?_⟩, ⟨hD.1.1, hD.1.2, ?_⟩⟩
  · intro h1 h2
    exact hS.2 h1 (by simpa using h2)
  · intro h1 h2
    exact hD.2 h1 (by simpa using h2)

/-- Witness for C8: both variants raise on turn 1 and still succeed on turn 2
(store via a FINISH decision, dev via the completion marker in the output). -/
theorem C8_witness :
    (instEntry (store_parseInstruction proceedText) ∈
        (run_coordinator_store envStoreSoftFail).history ∧
      errEntry (strL "boom") ∈ (run_coordinator_store envStoreSoftFail).history ∧
      (run_coordinator_store envStoreSoftFail).outcome = CoordOutcome.ret "Success") ∧
    (instEntry (dev_parseInstruction proceedText) ∈
        (run_coordinator_dev envDevSoftFail).history ∧
      errEntry (strL "boom") ∈ (run_coordinator_dev envDevSoftFail).history ∧
      (run_coordinator_dev envDevSoftFail).outcome = CoordOutcome.ret "Success") := by
  have h := C8_soft_failure_continuation envStoreSoftFail envDevSoftFail 1 1
    proceedText proceedText (strL "boom") (strL "boom")
    (by omega) (by decide) rfl (by decide) rfl
    (by omega) (by decide) rfl rfl
  exact ⟨⟨h.1.1, h.1.2.1, h.1.2.2 (by omega) (by decide)⟩,
    ⟨h.2.1, h.2.2.1, h.2.2.2 (by omega) (by decide)⟩⟩

/-! ## Helper lemmas: line splitting and label search -/

/-- Splitting into lines never yields the empty list. -/
theorem linesOf_ne_nil : ∀ t : Str, ¬ linesOf t = [] := by
  intro t
  induction t with
  | nil => simp [linesOf]
  | cons c cs ih =>
    by_cases hc : c = '\n'
    · simp [linesOf, hc]
    · simp only [linesOf, if_neg hc]
      cases h : linesOf cs with
      | nil => simp
      | cons l ls => simp

/-- Rejoining the line segments with newlines reconstructs the text, so
`linesOf` is the newline decomposition of its input. -/
theorem joinLines_linesOf : ∀ t : Str, joinLines (linesOf t) = t := by
  intro t
  induction t with
  | nil => rfl
  | cons c cs ih =>
    by_cases hc : c = '\n'
    · subst hc
      simp only [linesOf, if_pos rfl]
      cases h : linesOf cs with
      | nil => exact absurd h (linesOf_ne_nil cs)
      | cons l ls =>
        rw [h] at ih
        simp only [joinLines, List.nil_append]
        rw [ih]
    · simp only [linesOf, if_neg hc]
      cases h : linesOf cs with
      | nil => exact absurd h (linesOf_ne_nil cs)
      | cons l ls =>
        rw [h] at ih
        cases ls with
        | nil =>
          simp only [joinLines] at ih ⊢
          rw [ih]
        | cons l2 ls2 =>
          simp only [joinLines, List.cons_append] at ih ⊢
          rw [ih]

/-- No line segment contains a newline. -/
theorem linesOf_no_newline : ∀ (t : Str) (l : Str), l ∈ linesOf t → ¬ '\n' ∈ l := by
  intro t
  induction t with
  | nil =>
    intro l hl
    simp only [linesOf, List.mem_singleton] at hl
    subst hl
    simp
  | cons c cs ih =>
    intro l hl
    by_cases hc : c = '\n'
    · simp only [linesOf, if_pos hc] at hl
      rcases List.mem_cons.mp hl with h | h
      · subst h; simp
      · exact ih l h
    · cases h : linesOf cs with
      | nil => exact absurd h (linesOf_ne_nil cs)
      | cons l0 ls =>
        simp only [linesOf, if_neg hc, h] at hl
        rcases List.mem_cons.mp hl with h1 | h1
        · subst h1
          intro hmem
          rcases List.mem_cons.mp hmem with h2 | h2
          · exact hc h2.symm
          · have hl0 : l0 ∈ linesOf cs := by rw [h]; exact List.mem_cons_self l0 ls
            exact ih l0 hl0 h2
        · have hl1 : l ∈ linesOf cs := by rw [h]; exact List.mem_cons_of_mem l0 h1
          exact ih l hl1

/-- Unfolding lemma: split at a position where the pattern matches. -/
theorem splitFirst_cons_pos (pat : Str) (c : Char) (cs : Str)
    (hp : pat.isPrefixOf (c :: cs) = true) :
    splitFirst pat (c :: cs) = some ([], (c :: cs).drop pat.length) := by
  simp only [splitFirst]
  rw [if_pos hp]

/-- Unfolding lemma: split at a position where the pattern does not match. -/
theorem splitFirst_cons_neg (pat : Str) (c : Char) (cs : Str)
    (hp : pat.isPrefixOf (c :: cs) = false) :
    splitFirst pat (c :: cs) =
      (match splitFirst pat cs with
       | some (a, b) => some (c :: a, b)
       | none => none) := by
  simp only [splitFirst]
  rw [if_neg (by simp [hp])]

/-- Soundness of `splitFirst`: a successful split reconstructs the text. -/
theorem splitFirst_recon (pat : Str) :
    ∀ (t a b : Str), splitFirst pat t = some (a, b) → t = a ++ pat ++ b := by
  intro t
  induction t with
  | nil =>
    intro a b h
    by_cases hp : pat.isEmpty = true
    · simp only [splitFirst] at h
      rw [if_pos hp] at h
      have h2 : ([] : Str) = a ∧ ([] : Str) = b := by
        simpa using h
      have hpe : pat = [] := by
        cases pat with
        | nil => rfl
        | cons p ps => simp [List.isEmpty] at hp
      subst hpe
      rw [← h2.1, ← h2.2]
      rfl
    · simp only [splitFirst] at h
      rw [if_neg hp] at h
      exact Option.noConfusion h
  | cons c cs ih =>
    intro a b h
    cases hp : pat.isPrefixOf (c :: cs) with
    | true =>
      rw [splitFirst_cons_pos pat c cs hp] at h
      have h2 : ([] : Str) = a ∧ (c :: cs).drop pat.length = b := by
        simpa using h
      have hpre : pat <+: (c :: cs) := List.isPrefixOf_iff_prefix.mp hp
      obtain ⟨s, hs⟩ := hpre
      rw [← h2.1, ← h2.2, List.nil_append, ← hs, List.drop_left]
    | false =>
      rw [splitFirst_cons_neg pat c cs hp] at h
      cases hsp : splitFirst pat cs with
      | none =>
        rw [hsp] at h
        exact Option.noConfusion h
      | some ab =>
        obtain ⟨a1, b1⟩ := ab
        rw [hsp] at h
        have h2 : c :: a1 = a ∧ b1 = b := by
          simpa using h
        have ht := ih a1 b1 hsp
        rw [← h2.1, ← h2.2, List.cons_append, List.cons_append, ← ht]

/-- Completeness of `splitFirst`: when it reports no occurrence, the pattern is
nowhere in the text. -/
theorem splitFirst_none_not_append (pat : Str) (hpat : ¬ pat = []) :
    ∀ (t : Str), splitFirst pat t = none → ∀ a b : Str, ¬ t = a ++ pat ++ b := by
  intro t
  induction t with
  | nil =>
    intro _ a b heq
    have hx := heq.symm
    simp only [List.append_assoc, List.append_eq_nil] at hx
    exact hpat hx.2.1
  | cons c cs ih =>
    intro h a b heq
    cases hp : pat.isPrefixOf (c :: cs) with
    | true =>
      rw [splitFirst_cons_pos pat c cs hp] at h
      exact Option.noConfusion h
    | false =>
      rw [splitFirst_cons_neg pat c cs hp] at h
      cases hsp : splitFirst pat cs with
      | some ab =>
        obtain ⟨a1, b1⟩ := ab
        rw [hsp] at h
        exact Option.noConfusion h
      | none =>
        cases a with
        | nil =>
          simp only [List.nil_append] at heq
          have hpre : pat <+: (c :: cs) := ⟨b, heq.symm⟩
          have hT := List.isPrefixOf_iff_prefix.mpr hpre
          rw [hp] at hT
          exact Bool.noConfusion hT
        | cons a0 a2 =>
          simp only [List.cons_append, List.cons.injEq] at heq
          exact ih hsp a2 b heq.2

/-- Minimality of `splitFirst`: it reports the first occurrence of the
pattern. -/
theorem splitFirst_min (pat : Str) :
    ∀ (t a b : Str), splitFirst pat t = some (a, b) →
      ∀ a2 b2 : Str, t = a2 ++ pat ++ b2 → a.length ≤ a2.length := by
  intro t
  induction t with
  | nil =>
    intro a b h a2 b2 _
    by_cases hp : pat.isEmpty = true
    · simp only [splitFirst] at h
      rw [if_pos hp] at h
      have h2 : ([] : Str) = a ∧ ([] : Str) = b := by
        simpa using h
      rw [← h2.1]
      simp
    · simp only [splitFirst] at h
      rw [if_neg hp] at h
      exact Option.noConfusion h
  | cons c cs ih =>
    intro a b h a2 b2 heq
    cases hp : pat.isPrefixOf (c :: cs) with
    | true =>
      rw [splitFirst_cons_pos pat c cs hp] at h
      have h2 : ([] : Str) = a ∧ (c :: cs).drop pat.length = b := by
        simpa using h
      rw [← h2.1]
      simp
    | false =>
      rw [splitFirst_cons_neg pat c cs hp] at h
      cases hsp : splitFirst pat cs with
      | none =>
        rw [hsp] at h
        exact Option.noConfusion h
      | some ab =>
        obtain ⟨a1, b1⟩ := ab
        rw [hsp] at h
        have h2 : c :: a1 = a ∧ b1 = b := by
          simpa using h
        cases a2 with
        | nil =>
          simp only [List.nil_append] at heq
          have hpre : pat <+: (c :: cs) := ⟨b2, heq.symm⟩
          have hT := List.isPrefixOf_iff_prefix.mpr hpre
          rw [hp] at hT
          exact Bool.noConfusion hT
        | cons a20 a22 =>
          simp only [List.cons_append, List.cons.injEq] at heq
          have hle := ih a1 b1 hsp a22 b2 heq.2
          rw [← h2.1]
          simp only [List.length_cons]
          omega

/-! ## Claim C7 -/

/-- Claim C7 counterexample: on a planner output without the `INSTRUCTION:`
label that ends in a newline, both parsers fall back to the last line, which is
empty, while the last non-empty line of the output is `Do the thing.` — so the
fallback is not the last non-empty line that the claim states. -/
theorem C7_counterexample :
    dev_parseInstruction c7text = [] ∧
    store_parseInstruction c7text = [] ∧
    spec_lastNonEmptyLine c7text = strL "Do the thing." ∧
    ¬ dev_parseInstruction c7text = trim (spec_lastNonEmptyLine c7text) ∧
    ¬ store_parseInstruction c7text = trim (spec_lastNonEmptyLine c7text) := by
  decide

/-- Claim C7 (amended): parsing is total (the embedding never raises).  When the
`INSTRUCTION:` label occurs, both parsers return the stripped text after its
first occurrence (`splitFirst` is sound and minimal, so that text is exactly
what follows the first label), except that the store parser falls back when that
text strips to nothing.  When the label does not occur anywhere in the output,
both parsers return the stripped last line of the output — the last segment of
the newline decomposition of the text, possibly empty — not the last non-empty
line. -/
theorem C7_instruction_fallback (t a b : Str) :
    (splitFirst instrLabel t = some (a, b) →
       dev_parseInstruction t = trim b ∧
       store_parseInstruction t =
         (if (trim b).isEmpty then trim (lastLineOf t) else trim b) ∧
       t = a ++ instrLabel ++ b ∧
       (∀ a2 b2 : Str, t = a2 ++ instrLabel ++ b2 → a.length ≤ a2.length)) ∧
    (splitFirst instrLabel t = none →
       (dev_parseInstruction t = trim (lastLineOf t) ∧
        store_parseInstruction t = trim (lastLineOf t) ∧
        ∀ a2 b2 : Str, ¬ t = a2 ++ instrLabel ++ b2)) ∧
    joinLines (linesOf t) = t ∧
    (∀ l, l ∈ linesOf t → ¬ '\n' ∈ l) := by
  refine ⟨?_, ?_, joinLines_linesOf t, linesOf_no_newline t⟩
  · intro h
    refine ⟨?_, ?_, splitFirst_recon instrLabel t a b h,
      splitFirst_min instrLabel t a b h⟩
    · simp [dev_parseInstruction, h]
    · simp [store_parseInstruction, h]
  · intro h
    refine ⟨?_, ?_, splitFirst_none_not_append instrLabel (by decide) t h⟩
    · simp [dev_parseInstruction, h]
    · simp [store_parseInstruction, h]

/-- Witness for C7 on an output containing the label: the parsed instruction is
the stripped text after the first label occurrence, and the text decomposes
around that occurrence. -/
theorem C7_witness :
    dev_parseInstruction c7labelText = strL "do the update" ∧
    c7labelText = strL "THOUGHT: x\n" ++ instrLabel ++ strL " do the update\n" := by
  have h := (C7_instruction_fallback c7labelText (strL "THOUGHT: x\n")
      (strL " do the update\n")).1 (by decide)
  refine ⟨?_, h.2.2.1⟩
  rw [h.1]
  decide

end ERC
